import Mathlib

/-!
Verification development for the VLeSIM signaling server
(`voip-esim-framework/index.js`).

Strings from the JavaScript source are embedded as `List Char`.  The
JavaScript handlers mutate maps (`Map`) and emit network sends; here maps
become association lists and sends become an explicit effect list.  A
JavaScript exception thrown before any send (the dispatcher wraps each
handler in try/catch and drops the message) is modelled by returning the
unchanged state with no effects.
-/

set_option maxRecDepth 4000

abbrev Str := List Char

/-- JavaScript `s.split(sep)` for a one-character separator. -/
def split1 (a : Char) : Str → List Str
  | [] => [[]]
  | x :: xs =>
    if x = a then [] :: split1 a xs
    else
      match split1 a xs with
      | [] => [[]]
      | r :: rs => (x :: r) :: rs

/-- JavaScript `s.split(sep)` for a two-character separator `[a, b]`. -/
def split2 (a b : Char) : Str → List Str
  | [] => [[]]
  | [x] => [[x]]
  | x :: y :: xs =>
    if x = a ∧ y = b then [] :: split2 a b xs
    else
      match split2 a b (y :: xs) with
      | [] => [[]]
      | r :: rs => (x :: r) :: rs

/-- JavaScript `parts.join(sep)` for a two-character separator `[a, b]`. -/
def join2 (a b : Char) : List Str → Str
  | [] => []
  | [x] => x
  | x :: y :: ys => x ++ a :: b :: join2 a b (y :: ys)

/-- Whether the two-character sequence `[a, b]` occurs in a string. -/
def has2 (a b : Char) : Str → Bool
  | [] => false
  | [_] => false
  | x :: y :: xs => (x = a && y = b) || has2 a b (y :: xs)

/-- JavaScript `hay.includes(sub)`. -/
def strIncl (hay sub : Str) : Bool :=
  match hay with
  | [] => sub.isEmpty
  | _ :: t => sub.isPrefixOf hay || strIncl t sub

/-- JavaScript `s.toLowerCase()` (ASCII range, as used by the codec). -/
def lowerStr (s : Str) : Str := s.map Char.toLower

/-- Decimal digit to character, as produced by JavaScript number printing. -/
def digitChar (d : Nat) : Char :=
  if d = 0 then '0' else if d = 1 then '1' else if d = 2 then '2'
  else if d = 3 then '3' else if d = 4 then '4' else if d = 5 then '5'
  else if d = 6 then '6' else if d = 7 then '7' else if d = 8 then '8'
  else if d = 9 then '9' else '?'

/-- Numeric value of a digit character (JavaScript `parseInt(ch)`). -/
def charVal (c : Char) : Nat := c.toNat - 48

/-- Little-endian base-10 digits, fuel-structured so the kernel can reduce it. -/
def natDigitsRev (fuel n : Nat) : List Nat :=
  match fuel with
  | 0 => []
  | f + 1 => if n = 0 then [] else n % 10 :: natDigitsRev f (n / 10)

/-- JavaScript `n.toString()` for a nonnegative number. -/
def natToStr (n : Nat) : Str :=
  if n = 0 then ['0'] else ((natDigitsRev n n).reverse.map digitChar)

/-- JavaScript `parseInt(s)` on nonnegative input; `none` models `NaN`. -/
def parseIntNat (s : Str) : Option Nat :=
  let ds := s.takeWhile Char.isDigit
  if ds.isEmpty then none
  else some (ds.foldl (fun acc c => acc * 10 + charVal c) 0)

/-- JavaScript `s.padStart(10, '0')`. -/
def pad10 (s : Str) : Str := List.replicate (10 - s.length) '0' ++ s

/-- JavaScript `hay.indexOf(sub)` (as an `Option` instead of `-1`). -/
def idxOfAux (sub : Str) : Str → Option Nat
  | [] => if sub.isEmpty then some 0 else none
  | x :: xs =>
    if sub.isPrefixOf (x :: xs) then some 0
    else (idxOfAux sub xs).map (· + 1)

/-- `handleInvite`: `sdpStart >= 0 ? body.substring(sdpStart) : ''`. -/
def dropToV0 (s : Str) : Str :=
  match idxOfAux ("v=0".toList) s with
  | some i => s.drop i
  | none => []

/-- `s.split('<')[1].split('>')[0]`; `none` models the thrown `TypeError`
when the string has no `<`. -/
def extractUri (s : Str) : Option Str :=
  ((split1 '<' s).get? 1).map fun x => ((split1 '>' x).headD [])

/-! ## MessageCodec (`SIPMessage` in the source) -/

/-- The start line handed to `SIPMessage.create` (`options.type` with the
request fields or the response fields). -/
inductive Start where
  | req (method uri : Str)
  | res (code : Nat) (reason : Str)
  deriving DecidableEq

/-- The `options` object handed to `SIPMessage.create`.  An absent body is
the empty string: `if (options.body)` treats `''` and `undefined` alike,
and appending `''` is a no-op. -/
structure MsgOut where
  start : Start
  headers : List (Str × Str)
  body : Str
  deriving DecidableEq

/-- The message object produced by `SIPMessage.parse`; fields the branch
does not set are `none` (absent keys in JavaScript), `statusCode = none`
models `NaN`. -/
structure PMsg where
  isResponse : Bool
  method : Str
  uri : Option Str
  version : Option Str
  statusCode : Option Nat
  reasonPhrase : Option Str
  headers : List (Str × Str)
  body : Option Str
  deriving DecidableEq

def crlf : Str := ['\r', '\n']

def startLineStr : Start → Str
  | .req m u => m ++ ' ' :: (u ++ ' ' :: "SIP/2.0".toList)
  | .res c r => "SIP/2.0 ".toList ++ natToStr c ++ ' ' :: r

/-- `SIPMessage.create`.  Headers are emitted in caller order; the body is
appended after the blank line. -/
def create (m : MsgOut) : Str :=
  startLineStr m.start ++ crlf
    ++ m.headers.foldr (fun kv acc => kv.1 ++ ':' :: ' ' :: kv.2 ++ crlf ++ acc) []
    ++ crlf ++ m.body

/-- JavaScript object assignment `obj[k] = v`: replace in place if the key
exists, else append. -/
def objInsert (acc : List (Str × Str)) (kv : Str × Str) : List (Str × Str) :=
  if (acc.find? (fun p => p.1 == kv.1)).isSome then
    acc.map (fun p => if p.1 == kv.1 then (p.1, kv.2) else p)
  else acc ++ [kv]

/-- One header line in `SIPMessage.parse`: split on `': '`, lowercase the
name, rejoin the remainder as the value. -/
def headerOfLine (l : Str) : Str × Str :=
  let parts := split2 ':' ' ' l
  (lowerStr (parts.headD []), join2 ':' ' ' parts.tail)

/-- The header loop of `SIPMessage.parse`: consume lines until the first
empty line; the body exists only if lines remain after the blank
(`i < lines.length - 1`). -/
def splitHeaderBody : List Str → List Str × Option Str
  | [] => ([], none)
  | l :: ls =>
    if l.isEmpty then
      ([], if ls.isEmpty then none else some (join2 '\r' '\n' ls))
    else
      let p := splitHeaderBody ls
      (l :: p.1, p.2)

/-- `SIPMessage.parse`. -/
def parse (data : Str) : PMsg :=
  let lines := split2 '\r' '\n' data
  let firstParts := split1 ' ' (lines.headD [])
  let hb := splitHeaderBody lines.tail
  let headers := hb.1.foldl (fun acc l => objInsert acc (headerOfLine l)) []
  if firstParts.headD [] = "SIP/2.0".toList then
    { isResponse := true, method := [], uri := none, version := none
      statusCode := (firstParts.get? 1).bind parseIntNat
      reasonPhrase := firstParts.get? 2
      headers := headers, body := hb.2 }
  else
    { isResponse := false, method := firstParts.headD []
      uri := firstParts.get? 1, version := firstParts.get? 2
      statusCode := none, reasonPhrase := none
      headers := headers, body := hb.2 }

/-! ## Server data model (`SIPServer` in the source) -/

/-- A transport descriptor (`{protocol, address, port}`; external call
legs carry their dedicated socket id).  The handlers compare transports
with `===`, which is JavaScript object identity: the dispatcher builds a
fresh transport object literal for every arriving message, so two
transports are `===`-equal only if they are the same allocation.
`ident` names the allocation; structural equality including `ident`
models `===`, with distinct arrivals carrying distinct `ident`s even
when address and port coincide. -/
structure Transport where
  protocol : Str
  address : Str
  port : Nat
  sockId : Option Nat := none
  ident : Nat := 0
  deriving DecidableEq

/-- A registrar binding: `{contact, expires: Date.now() + expires * 1000,
transport}`. -/
structure Registration where
  contact : Str
  expires : Nat
  transport : Transport
  deriving DecidableEq

/-- A `call` object as built by `handleInvite` / `handleExternalCall`.
`toSDP` and `isExternal` start absent (`none` / `false`). -/
structure Call where
  id : Str
  from_ : Str
  to_ : Str
  fromTransport : Transport
  toTransport : Transport
  fromSDP : Str
  toSDP : Option Str := none
  state : Str
  isExternal : Bool := false
  deriving DecidableEq

/-- A media relay session: the two freshly bound UDP sockets, named by
allocation number. -/
structure MediaRelay where
  fromSock : Nat
  toSock : Nat
  deriving DecidableEq

/-- The audio media coordinates extracted by `parseSDP`
(`{type: 'audio', port, address}`). -/
structure MediaInfo where
  port : Option Nat
  address : Option Str
  deriving DecidableEq

/-- The result object of `provisionNewESIM` flattened to the fields the
provisioning response interpolates. -/
structure ProvisionData where
  phoneNumber : Str
  iccid : Str
  imsi : Str
  activationCode : Str
  smDpPlusAddress : Str
  sipServerUrl : Str
  encodedActivationCode : Str
  deriving DecidableEq

/-- The mutable fields of a `SIPServer` reached by the handlers, plus a
socket allocator and the set of closed UDP sockets (Node raises
`ERR_SOCKET_DGRAM_NOT_RUNNING` when a dgram socket is closed twice). -/
structure ServerState where
  registrations : List (Str × Registration)
  calls : List (Str × Call)
  mediaRelays : List (Str × MediaRelay)
  allowOutboundCalls : Bool
  nextSock : Nat
  closedSocks : List Nat
  deriving DecidableEq

/-- Network sends a handler performs, in program order. -/
inductive Eff where
  | response (code : Nat) (reason : Str) (extra : List (Str × Str)) (body : Str)
  | fwd (method : Str) (uri : Str) (dest : Transport) (body : Str)
  | provisionEmit
  | extSend (uri : Str) (host : Str) (body : Str)
  | relayResp (code : Option Nat) (reason : Option Str) (body : Str)
  deriving DecidableEq

/-- A request as seen by the handlers (`message.method`, `message.uri`,
`message.headers`, `message.body`). -/
structure HMsg where
  method : Str
  uri : Str
  headers : List (Str × Str)
  body : Str
  deriving DecidableEq

/-- `message.headers[name]` (parse lowercases keys on the way in). -/
def hGet (m : HMsg) (k : Str) : Option Str :=
  ((m.headers.find? (fun p => p.1 == k)).map (·.2))

/-- `Map.get`. -/
def mget {α : Type} (m : List (Str × α)) (k : Str) : Option α :=
  ((m.find? (fun p => p.1 == k)).map (·.2))

/-- `Map.set`. -/
def mset {α : Type} (m : List (Str × α)) (k : Str) (v : α) : List (Str × α) :=
  if (m.find? (fun p => p.1 == k)).isSome then
    m.map (fun p => if p.1 == k then (k, v) else p)
  else m ++ [(k, v)]

/-- `Map.delete`. -/
def mdel {α : Type} (m : List (Str × α)) (k : Str) : List (Str × α) :=
  m.filter (fun p => !(p.1 == k))

/-! ## SDP parsing and the media relay -/

/-- `parseSDP` (returned `result.media`): scan the lines; an `m=audio`
line opens the media section and records the port; a later `c=` line
records the address (`line.split(' ')[2]`). -/
def parseSDPLoop : List Str → Bool → Option MediaInfo → Option MediaInfo
  | [], _, m => m
  | l :: ls, sec, m =>
    if ("m=audio".toList).isPrefixOf l then
      parseSDPLoop ls true (some { port := ((split1 ' ' l).get? 1).bind parseIntNat, address := none })
    else if sec && ("c=".toList).isPrefixOf l then
      parseSDPLoop ls sec (m.map fun mi => { mi with address := (split1 ' ' l).get? 2 })
    else parseSDPLoop ls sec m

def parseSDP (sdp : Str) : Option MediaInfo :=
  parseSDPLoop (split2 '\r' '\n' sdp) false none

/-- `setupMediaRelay(callId, call)`: bail out if either SDP lacks a media
line; otherwise bind two fresh UDP sockets and store the relay under the
call-id — with no check for an already existing session.  (The
byte-forwarding rules installed on the sockets carry no server state and
are omitted.) -/
def setupMediaRelay (st : ServerState) (callId : Str) (fromSDP toSDP : Str) : ServerState :=
  match parseSDP fromSDP, parseSDP toSDP with
  | some _, some _ =>
    { st with
      nextSock := st.nextSock + 2
      mediaRelays := mset st.mediaRelays callId ⟨st.nextSock, st.nextSock + 1⟩ }
  | _, _ => st

/-- `socket.close()` for a dgram socket: Node raises
`ERR_SOCKET_DGRAM_NOT_RUNNING` if the socket is already closed.  Returns
the new closed set and whether an error was raised. -/
def dgramCloseT (closed : List Nat) (s : Nat) : List Nat × Bool :=
  if closed.contains s then (closed, true) else (s :: closed, false)

/-- `mediaRelay.close()`: close `fromSocket` then `toSocket`; a raise on
the first close aborts before the second. -/
def relayCloseT (closed : List Nat) (r : MediaRelay) : List Nat × Bool :=
  let c1 := dgramCloseT closed r.fromSock
  if c1.2 then (c1.1, true)
  else
    let c2 := dgramCloseT c1.1 r.toSock
    (c2.1, c2.2)

/-! ## Request handlers -/

/-- `handleRegister`.  A missing `To` (or a `Contact`/`To` without `<`)
makes the JavaScript extraction throw before any send, which the
dispatcher catches: modelled as no effect. -/
def handleRegister (st : ServerState) (msg : HMsg) (tr : Transport) (now : Nat) :
    ServerState × List Eff :=
  match (hGet msg ("to".toList)).bind extractUri with
  | none => (st, [])
  | some aor =>
    let cHdr := hGet msg ("contact".toList)
    let contactRes : Option (Option Str) :=
      match cHdr with
      | none => some none
      | some c => if c.isEmpty then some none else (extractUri c).map some
    match contactRes with
    | none => (st, [])
    | some contact =>
      let expires : Option Nat :=
        match hGet msg ("expires".toList) with
        | none => some 3600
        | some e => if e.isEmpty then some 3600 else parseIntNat e
      let doRegister :=
        (match expires with | some n => decide (0 < n) | none => false) &&
        (match contact with | some ct => !ct.isEmpty | none => false)
      let newReg : Registration :=
        { contact := contact.getD []
          expires := now + (expires.getD 0) * 1000
          transport := tr }
      let st' :=
        if doRegister then
          { st with registrations := mset st.registrations aor newReg }
        else { st with registrations := mdel st.registrations aor }
      (st', [Eff.response 200 ("OK".toList)
        [(("Contact".toList), cHdr.getD ("undefined".toList)),
         (("Expires".toList), match expires with | some n => natToStr n | none => "NaN".toList)]
        []])

/-- `handleExternalCall`: allocate a dedicated UDP socket, send
`100 Trying`, store a fresh Call in state `trying` with
`isExternal: true`, and send the rewritten INVITE to `host:5060`. -/
def handleExternalCall (st : ServerState) (msg : HMsg) (tr : Transport)
    (to_ from_ callId : Str) : ServerState × List Eff :=
  match (split1 '@' to_).get? 1, (split1 ':' to_).get? 1 with
  | some afterAt, some _ =>
    let toDomain := (split1 ':' ((split1 ';' afterAt).headD [])).headD []
    let sock := st.nextSock
    let sdp := dropToV0 msg.body
    let extTr : Transport := { protocol := "udp".toList, address := toDomain, port := 5060, sockId := some sock }
    let call : Call :=
      { id := callId, from_ := from_, to_ := to_, fromTransport := tr
        toTransport := extTr, fromSDP := sdp, toSDP := none
        state := "trying".toList, isExternal := true }
    ({ st with nextSock := st.nextSock + 1, calls := mset st.calls callId call },
     [Eff.response 100 ("Trying".toList) [] [],
      Eff.extSend to_ toDomain sdp])
  | _, _ => (st, [])

/-- `handleInvite`: provisioning targets are delegated (no Call);
unregistered non-local targets are routed externally; unregistered local
targets get 404; registered targets get a Call in state `ringing`,
`100 Trying`, and a forwarded INVITE — the existing calls entry for the
Call-ID, if any, is overwritten by `calls.set`. -/
def handleInvite (st : ServerState) (msg : HMsg) (tr : Transport) :
    ServerState × List Eff :=
  match hGet msg ("call-id".toList),
        (hGet msg ("to".toList)).bind extractUri,
        (hGet msg ("from".toList)).bind extractUri with
  | some callId, some to_, some from_ =>
    let toRegistration := mget st.registrations to_
    if strIncl to_ ("@0.0.0.0".toList) && strIncl to_ ("provision".toList) then
      (st, [Eff.provisionEmit])
    else if toRegistration.isNone && st.allowOutboundCalls
            && !(strIncl to_ ("@0.0.0.0".toList)) then
      handleExternalCall st msg tr to_ from_ callId
    else
      match toRegistration with
      | none => (st, [Eff.response 404 ("Not Found".toList) [] []])
      | some reg =>
        let sdp := dropToV0 msg.body
        let call : Call :=
          { id := callId, from_ := from_, to_ := to_, fromTransport := tr
            toTransport := reg.transport, fromSDP := sdp, toSDP := none
            state := "ringing".toList, isExternal := false }
        ({ st with calls := mset st.calls callId call },
         [Eff.response 100 ("Trying".toList) [] [],
          Eff.fwd ("INVITE".toList) to_ reg.transport msg.body])
  | _, _, _ => (st, [])

/-- The response listener attached to an external call's socket: matching
responses are relayed back to the original caller; a 200 marks the
captured call `accepted`, stores the answer SDP, and (when both SDPs are
present) sets up the media relay.  Non-200 responses change nothing. -/
def handleExtResponse (st : ServerState) (callId : Str) (call : Call) (resp : PMsg) :
    ServerState × List Eff :=
  if resp.isResponse && (mget resp.headers ("call-id".toList) == some callId) then
    let effs := [Eff.relayResp resp.statusCode resp.reasonPhrase (resp.body.getD [])]
    if resp.statusCode == some 200 then
      let call1 := { call with state := "accepted".toList }
      match resp.body with
      | some b =>
        if !b.isEmpty then
          let call2 := { call1 with toSDP := some b }
          let st1 := { st with calls := mset st.calls callId call2 }
          if !call2.fromSDP.isEmpty then (setupMediaRelay st1 callId call2.fromSDP b, effs)
          else (st1, effs)
        else ({ st with calls := mset st.calls callId call1 }, effs)
      | none => ({ st with calls := mset st.calls callId call1 }, effs)
    else (st, effs)
  else (st, [])

/-- `handleBye`: 481 when no Call exists; otherwise forward the BYE,
answer 200, delete the Call, and close and remove any media relay.  The
leg selection tests `transport === call.fromTransport` (object identity,
modelled through `Transport.ident`); a request arriving after the INVITE
carries a fresh transport object, so the test is false and the BYE goes
to `call.fromTransport` with uri `call.from`.  The third component
reports whether `close()` raised (socket already closed); the relay
entry survives a raise because the `delete` follows the `close`. -/
def handleBye (st : ServerState) (msg : HMsg) (tr : Transport) :
    ServerState × List Eff × Bool :=
  let callId := hGet msg ("call-id".toList)
  match callId.bind (mget st.calls) with
  | none => (st, [Eff.response 481 ("Call/Transaction Does Not Exist".toList) [] []], false)
  | some call =>
    let otherTr := if tr = call.fromTransport then call.toTransport else call.fromTransport
    let fwdUri := if tr = call.fromTransport then call.to_ else call.from_
    let effs := [Eff.fwd ("BYE".toList) fwdUri otherTr [],
                 Eff.response 200 ("OK".toList) [] []]
    let st1 := { st with calls := (match callId with | some cid => mdel st.calls cid | none => st.calls) }
    match callId.bind (mget st.mediaRelays) with
    | none => (st1, effs, false)
    | some relay =>
      let cl := relayCloseT st.closedSocks relay
      if cl.2 then ({ st1 with closedSocks := cl.1 }, effs, true)
      else
        let relays' := (match callId with | some cid => mdel st.mediaRelays cid | none => st.mediaRelays)
        ({ st1 with closedSocks := cl.1, mediaRelays := relays' }, effs, false)

/-- `handleCancel`: 481 when no Call exists; otherwise forward the
CANCEL, answer 200, and delete the Call — with no state check and no
media relay teardown.  As in `handleBye`, the leg selection is an object
identity test that is false for any CANCEL arriving after the INVITE, so
the CANCEL is forwarded to `call.fromTransport` with uri `call.from`. -/
def handleCancel (st : ServerState) (msg : HMsg) (tr : Transport) :
    ServerState × List Eff :=
  let callId := hGet msg ("call-id".toList)
  match callId.bind (mget st.calls) with
  | none => (st, [Eff.response 481 ("Call/Transaction Does Not Exist".toList) [] []])
  | some call =>
    let otherTr := if tr = call.fromTransport then call.toTransport else call.fromTransport
    let fwdUri := if tr = call.fromTransport then call.to_ else call.from_
    ({ st with calls := (match callId with | some cid => mdel st.calls cid | none => st.calls) },
     [Eff.fwd ("CANCEL".toList) fwdUri otherTr [],
      Eff.response 200 ("OK".toList) [] []])

/-- `handleAck`: silently dropped when no Call exists; otherwise forward
the ACK (leg selection by the same object-identity test as BYE/CANCEL)
and, when the call is `accepted` with both SDPs present, set up the
media relay (again, even if one already exists). -/
def handleAck (st : ServerState) (msg : HMsg) (tr : Transport) :
    ServerState × List Eff :=
  let callId := hGet msg ("call-id".toList)
  match callId, callId.bind (mget st.calls) with
  | some cid, some call =>
    let otherTr := if tr = call.fromTransport then call.toTransport else call.fromTransport
    let fwdUri := if tr = call.fromTransport then call.to_ else call.from_
    let effs := [Eff.fwd ("ACK".toList) fwdUri otherTr msg.body]
    if call.state = "accepted".toList && !call.fromSDP.isEmpty &&
       (match call.toSDP with | some s => !s.isEmpty | none => false) then
      (setupMediaRelay st cid call.fromSDP (call.toSDP.getD []), effs)
    else (st, effs)
  | _, _ => (st, [])

/-! ## Provisioning extension (`VoIPESIMProvider.handleProvisioningRequest`) -/

/-- The template-literal response body, verbatim from the source
(including the literal newline and two-space indentation inside the
template). -/
def provisionBody (d : ProvisionData) : Str :=
  "ESIM-PROVISIONED\r\n\n  Phone-Number: ".toList ++ d.phoneNumber
    ++ "\n  ICCID: ".toList ++ d.iccid
    ++ "\n  IMSI: ".toList ++ d.imsi
    ++ "\n  Activation-Code: ".toList ++ d.activationCode
    ++ "\n  SM-DP-Address: ".toList ++ d.smDpPlusAddress
    ++ "\n  SIP-URL: ".toList ++ d.sipServerUrl
    ++ "\n  Encoded-Profile: ".toList ++ d.encodedActivationCode
    ++ "\n  ".toList

/-- `handleProvisioningRequest`: 400 when the marker is missing, 500 when
minting throws, otherwise 200 with the interpolated body.  The
ProfileStore outcome is the `mint` argument; no server state is touched
on any path. -/
def handleProvisioningRequest (mint : Except Unit ProvisionData) (msg : HMsg) : List Eff :=
  if !(strIncl msg.body ("PROVISION-ESIM".toList)) then
    [Eff.response 400 ("Bad Request".toList) [] []]
  else
    match mint with
    | .error _ => [Eff.response 500 ("Internal Server Error".toList) [] []]
    | .ok d =>
      [Eff.response 200 ("OK".toList)
        [(("Content-Type".toList), "application/esim-provision".toList),
         (("Content-Length".toList), natToStr (provisionBody d).length)]
        (provisionBody d)]

/-! ## ICCID generation (`ESIMProvisioner.generateIccid`) -/

/-- The check-digit loop: digits at even zero-based positions are
doubled, with 9 subtracted when the doubled value exceeds 9. -/
def luhnGo (i : Nat) : Str → Nat
  | [] => 0
  | c :: cs =>
    (if i % 2 = 0 then
       (if 2 * charVal c > 9 then 2 * charVal c - 9 else 2 * charVal c)
     else charVal c) + luhnGo (i + 1) cs

/-- `generateIccid`, as a function of the random draw
`Math.floor(Math.random() * 10000000000)`. -/
def generateIccid (r : Nat) : Str :=
  let baseIccid := "898801".toList ++ pad10 (natToStr r)
  let sum := luhnGo 0 baseIccid
  let checkDigit := (10 - sum % 10) % 10
  baseIccid ++ natToStr checkDigit

/-! ## Derived definitions used by the theorems -/

/-- Value of a little-endian digit list. -/
def ofDigitsLE : List Nat → Nat
  | [] => 0
  | d :: ds => d + 10 * ofDigitsLE ds

/-- One serialized header line (without the trailing CRLF). -/
def hdrLine (kv : Str × Str) : Str := kv.1 ++ ':' :: ' ' :: kv.2

/-- The serialized header block of `SIPMessage.create`. -/
def hdrBlock (hs : List (Str × Str)) : Str :=
  hs.foldr (fun kv acc => kv.1 ++ ':' :: ' ' :: kv.2 ++ crlf ++ acc) []

/-- Tokens of a start line must not contain the separators the codec
splits on. -/
@[reducible] def tokenOk (s : Str) : Prop := ' ' ∉ s ∧ '\r' ∉ s ∧ '\n' ∉ s

/-- Well-formedness of a start line: clean tokens, a request method that
is not the version literal, a reason phrase without spaces. -/
@[reducible] def startOk : Start → Prop
  | .req mth u => tokenOk mth ∧ tokenOk u ∧ mth ≠ "SIP/2.0".toList
  | .res _ r => tokenOk r

/-- Well-formedness of a header pair: no line breaks, no `': '` inside
the name, and a name already in lower case. -/
@[reducible] def hdrOk (kv : Str × Str) : Prop :=
  '\r' ∉ kv.1 ∧ '\n' ∉ kv.1 ∧ '\r' ∉ kv.2 ∧ '\n' ∉ kv.2 ∧
  has2 ':' ' ' kv.1 = false ∧ lowerStr kv.1 = kv.1

/-- A well-formed `create` input: clean start line, clean headers with
distinct names. -/
@[reducible] def wellFormed (m : MsgOut) : Prop :=
  startOk m.start ∧ (∀ kv ∈ m.headers, hdrOk kv) ∧ (m.headers.map Prod.fst).Nodup

instance (st : Start) : Decidable (startOk st) :=
  match st with
  | .req mth u =>
    inferInstanceAs (Decidable (tokenOk mth ∧ tokenOk u ∧ mth ≠ "SIP/2.0".toList))
  | .res _ r => inferInstanceAs (Decidable (tokenOk r))

/-- The message `parse` is expected to reproduce from `create m`
(absent body comes back as `some ""`, hence `some m.body`). -/
def expectedParse (m : MsgOut) : PMsg :=
  match m.start with
  | .req mth u =>
    { isResponse := false, method := mth, uri := some u
      version := some ("SIP/2.0".toList), statusCode := none, reasonPhrase := none
      headers := m.headers, body := some m.body }
  | .res c r =>
    { isResponse := true, method := [], uri := none, version := none
      statusCode := some c, reasonPhrase := some r
      headers := m.headers, body := some m.body }

/-! ## Concrete fixtures used in closed theorems -/

def trA : Transport := ⟨"udp".toList, "9.9.9.9".toList, 777, none, 0⟩

/-- The transport object built for a later arrival from the caller's own
address and port: same coordinates as `trA`, but a fresh object. -/
def trA2 : Transport := ⟨"udp".toList, "9.9.9.9".toList, 777, none, 1⟩

def trB : Transport := ⟨"udp".toList, "8.8.8.8".toList, 888, none, 2⟩

def stEmpty : ServerState := ⟨[], [], [], true, 0, []⟩

/-- REGISTER for `alice` with `Expires: 1` (binding lives 1 second). -/
def regMsgExp1 : HMsg :=
  ⟨"REGISTER".toList, "sip:0.0.0.0".toList,
   [("to".toList, "<sip:alice@0.0.0.0>".toList),
    ("contact".toList, "<sip:alice@8.8.8.8>".toList),
    ("expires".toList, "1".toList)], []⟩

/-- REGISTER for `alice` carrying a Contact but no Expires header. -/
def regMsgNoExp : HMsg :=
  ⟨"REGISTER".toList, "sip:0.0.0.0".toList,
   [("to".toList, "<sip:alice@0.0.0.0>".toList),
    ("contact".toList, "<sip:alice@8.8.8.8>".toList)], []⟩

/-- INVITE to `alice`, Call-ID `abc`. -/
def invAlice : HMsg :=
  ⟨"INVITE".toList, "sip:alice@0.0.0.0".toList,
   [("call-id".toList, "abc".toList),
    ("to".toList, "<sip:alice@0.0.0.0>".toList),
    ("from".toList, "<sip:bob@0.0.0.0>".toList)], []⟩

def sdpOffer : Str := "v=0\r\nm=audio 4000 RTP/AVP 0\r\nc=IN IP4 7.7.7.7".toList

def sdpAnswer : Str := "v=0\r\nm=audio 5000 RTP/AVP 0\r\nc=IN IP4 6.6.6.6".toList

/-- A Call for `abc` already in state `accepted` with both SDPs known. -/
def callAcc : Call :=
  ⟨"abc".toList, "sip:bob@0.0.0.0".toList, "sip:alice@0.0.0.0".toList,
   trA, trB, sdpOffer, some sdpAnswer, "accepted".toList, false⟩

def regAlice : Registration := ⟨"sip:alice@8.8.8.8".toList, 1000, trB⟩

/-- Server state with the accepted call `abc` and its media relay
(sockets 0 and 1) in place. -/
def stAcc : ServerState :=
  ⟨[("sip:alice@0.0.0.0".toList, regAlice)], [("abc".toList, callAcc)],
   [("abc".toList, ⟨0, 1⟩)], true, 2, []⟩

def cancelMsg : HMsg :=
  ⟨"CANCEL".toList, "sip:alice@0.0.0.0".toList, [("call-id".toList, "abc".toList)], []⟩

def byeMsg : HMsg :=
  ⟨"BYE".toList, "sip:alice@0.0.0.0".toList, [("call-id".toList, "abc".toList)], []⟩

/-- A response whose reason phrase has a space, as the server itself
sends (`404 Not Found`). -/
def resNotFound : MsgOut := ⟨.res 404 ("Not Found".toList), [("via".toList, "v".toList)], []⟩

/-- A well-formed request used to witness the amended round-trip. -/
def reqWitness : MsgOut :=
  ⟨.req ("INVITE".toList) ("sip:a@b".toList),
   [("via".toList, "x1".toList), ("call-id".toList, "c7".toList)], "v=0\r\nhello".toList⟩

/-- An externally-routed call awaiting its final response. -/
def callExt : Call :=
  ⟨"e1".toList, "sip:bob@0.0.0.0".toList, "sip:carol@ext.com".toList,
   trA, ⟨"udp".toList, "ext.com".toList, 5060, some 0, 3⟩, sdpOffer, none,
   "trying".toList, true⟩

def stExt : ServerState := ⟨[], [("e1".toList, callExt)], [], true, 1, []⟩

/-- A non-2xx final response for `e1` as parsed off the call-scoped
socket. -/
def respExt404 : PMsg :=
  ⟨true, [], none, none, some 404, some ("Not Found".toList),
   [("call-id".toList, "e1".toList)], none⟩

/-- INVITE to the reserved provisioning target carrying the marker. -/
def provMsg : HMsg :=
  ⟨"INVITE".toList, "sip:provision@0.0.0.0".toList,
   [("call-id".toList, "p1".toList),
    ("to".toList, "<sip:provision@0.0.0.0>".toList),
    ("from".toList, "<sip:bob@0.0.0.0>".toList)], "PROVISION-ESIM".toList⟩

/-- A freshly minted profile as flattened for the response template. -/
def pdFix : ProvisionData :=
  ⟨"9351000".toList, "89880112345678905".toList, "3102601234567890".toList,
   "AC12".toList, "0.0.0.0".toList, "sip:9351000@0.0.0.0:5053".toList, "QUJD".toList⟩

/-- The Call object `handleInvite` builds for a registered target. -/
def ringingCall (cid from_ to_ : Str) (tr : Transport) (reg : Registration)
    (body : Str) : Call :=
  ⟨cid, from_, to_, tr, reg.transport, dropToV0 body, none, "ringing".toList, false⟩

/-! ## Lemmas about the string splitters -/

theorem split2_ne_nil (a b : Char) : (s : Str) → split2 a b s ≠ []
  | [] => by simp [split2]
  | [x] => by simp [split2]
  | x :: y :: xs => by
    rw [split2]
    split
    · simp
    · split
      · simp
      · simp

theorem join2_cons_cons (a b : Char) (x : Char) (r : Str) (rs : List Str) :
    join2 a b ((x :: r) :: rs) = x :: join2 a b (r :: rs) := by
  cases rs <;> simp [join2]

theorem join2_split2 (a b : Char) : (s : Str) → join2 a b (split2 a b s) = s
  | [] => by simp [split2, join2]
  | [x] => by simp [split2, join2]
  | x :: y :: xs => by
    rw [split2]
    split
    · next h =>
      obtain ⟨hx, hy⟩ := h
      have ih := join2_split2 a b xs
      cases hsp : split2 a b xs with
      | nil => exact absurd hsp (split2_ne_nil a b xs)
      | cons r rs =>
        rw [hsp] at ih
        subst hx; subst hy
        simp [hsp, join2, ih]
    · have ih := join2_split2 a b (y :: xs)
      cases hsp : split2 a b (y :: xs) with
      | nil => exact absurd hsp (split2_ne_nil a b (y :: xs))
      | cons r rs =>
        rw [hsp] at ih
        simp only [hsp]
        rw [join2_cons_cons, ih]

theorem has2_cons_cons (a b x y : Char) (xs : Str) :
    has2 a b (x :: y :: xs) = ((x = a && y = b) || has2 a b (y :: xs)) := by
  rw [has2]

theorem has2_false_of_not_mem (a b : Char) : (s : Str) → b ∉ s → has2 a b s = false
  | [], _ => rfl
  | [_], _ => rfl
  | x :: y :: xs, h => by
    have hb : b ∉ y :: xs := fun hm => h (List.mem_cons_of_mem _ hm)
    have ih := has2_false_of_not_mem a b (y :: xs) hb
    have hy : ¬(y = b) := fun he => h (by simp [he])
    simp [has2_cons_cons, ih, hy]

theorem split2_append_sep (a b : Char) (hab : a ≠ b) :
    (n rest : Str) → has2 a b n = false →
    split2 a b (n ++ a :: b :: rest) = n :: split2 a b rest
  | [], rest, _ => by
    simp only [List.nil_append]
    rw [split2, if_pos ⟨rfl, rfl⟩]
  | [x], rest, _ => by
    have h0 : split2 a b (a :: b :: rest) = [] :: split2 a b rest := by
      rw [split2, if_pos ⟨rfl, rfl⟩]
    simp only [List.cons_append, List.nil_append]
    rw [split2, if_neg (fun hp => hab hp.2), h0]
  | x :: y :: n', rest, h => by
    have hxy : ¬(x = a ∧ y = b) := by
      intro hp
      rw [has2_cons_cons, hp.1, hp.2] at h
      simp at h
    have htail : has2 a b (y :: n') = false := by
      rw [has2_cons_cons] at h
      exact (Bool.or_eq_false_iff.mp h).2
    have ih := split2_append_sep a b hab (y :: n') rest htail
    simp only [List.cons_append] at ih ⊢
    rw [split2, if_neg hxy, ih]

theorem split2_no_sep (a b : Char) : (s : Str) → has2 a b s = false → split2 a b s = [s]
  | [], _ => rfl
  | [x], _ => rfl
  | x :: y :: xs, h => by
    have hxy : ¬(x = a ∧ y = b) := by
      intro hp
      rw [has2_cons_cons, hp.1, hp.2] at h
      simp at h
    have htail : has2 a b (y :: xs) = false := by
      rw [has2_cons_cons] at h
      exact (Bool.or_eq_false_iff.mp h).2
    have ih := split2_no_sep a b (y :: xs) htail
    rw [split2, if_neg hxy, ih]

theorem split1_ne_nil (a : Char) : (s : Str) → split1 a s ≠ []
  | [] => by simp [split1]
  | x :: xs => by
    rw [split1]
    split
    · simp
    · split
      · simp
      · simp

theorem split1_append_sep (a : Char) :
    (n rest : Str) → a ∉ n → split1 a (n ++ a :: rest) = n :: split1 a rest
  | [], rest, _ => by
    simp only [List.nil_append]
    rw [split1, if_pos rfl]
  | x :: n', rest, h => by
    have hx : ¬(x = a) := fun he => h (by simp [he])
    have ih := split1_append_sep a n' rest (fun hm => h (List.mem_cons_of_mem _ hm))
    simp only [List.cons_append]
    rw [split1, if_neg hx, ih]

theorem split1_no_sep (a : Char) : (s : Str) → a ∉ s → split1 a s = [s]
  | [], _ => rfl
  | x :: xs, h => by
    have hx : ¬(x = a) := fun he => h (by simp [he])
    have ih := split1_no_sep a xs (fun hm => h (List.mem_cons_of_mem _ hm))
    rw [split1, if_neg hx, ih]

/-! ## Lemmas about decimal printing and parsing -/

theorem charVal_digitChar (d : Nat) (h : d < 10) : charVal (digitChar d) = d := by
  interval_cases d <;> decide

theorem isDigit_digitChar (d : Nat) (h : d < 10) : (digitChar d).isDigit = true := by
  interval_cases d <;> decide

theorem isDigit_not_special (c : Char) (h : c.isDigit = true) :
    ¬(c = ' ') ∧ ¬(c = '\r') ∧ ¬(c = '\n') := by
  refine ⟨?_, ?_, ?_⟩ <;> rintro rfl <;> exact absurd h (by decide)

theorem natDigitsRev_zero (f : Nat) : natDigitsRev f 0 = [] := by
  cases f <;> simp [natDigitsRev]

theorem natDigitsRev_val : (f n : Nat) → n ≤ f → ofDigitsLE (natDigitsRev f n) = n
  | 0, n, h => by
    have : n = 0 := Nat.le_zero.mp h
    subst this
    simp [natDigitsRev, ofDigitsLE]
  | f + 1, n, h => by
    by_cases hn : n = 0
    · subst hn; simp [natDigitsRev, ofDigitsLE]
    · have hlt : n / 10 < n := Nat.div_lt_self (Nat.pos_of_ne_zero hn) (by norm_num)
      have hle : n / 10 ≤ f := by omega
      have ih := natDigitsRev_val f (n / 10) hle
      simp only [natDigitsRev, if_neg hn, ofDigitsLE, ih]
      omega

theorem natDigitsRev_lt : (f n : Nat) → ∀ d ∈ natDigitsRev f n, d < 10
  | 0, n => by simp [natDigitsRev]
  | f + 1, n => by
    by_cases hn : n = 0
    · subst hn; simp [natDigitsRev]
    · simp only [natDigitsRev, if_neg hn, List.mem_cons]
      intro d hd
      rcases hd with h | h
      · subst h; exact Nat.mod_lt _ (by norm_num)
      · exact natDigitsRev_lt f (n / 10) d h

theorem natDigitsRev_len : (f n k : Nat) → n ≤ f → n < 10 ^ k → (natDigitsRev f n).length ≤ k
  | 0, n, k, h, _ => by
    have : n = 0 := Nat.le_zero.mp h
    subst this
    simp [natDigitsRev]
  | f + 1, n, k, h, hk => by
    by_cases hn : n = 0
    · subst hn; simp [natDigitsRev]
    · have hk1 : 1 ≤ k := by
        by_contra hc
        have : k = 0 := by omega
        subst this
        simp at hk
        omega
      have hlt : n / 10 < n := Nat.div_lt_self (Nat.pos_of_ne_zero hn) (by norm_num)
      have hle : n / 10 ≤ f := by omega
      have hdiv : n / 10 < 10 ^ (k - 1) := by
        rw [Nat.div_lt_iff_lt_mul (by norm_num : 0 < 10)]
        calc n < 10 ^ k := hk
        _ = 10 ^ (k - 1) * 10 := by
          rw [← Nat.pow_succ]
          congr 1
          omega
      have ih := natDigitsRev_len f (n / 10) (k - 1) hle hdiv
      simp only [natDigitsRev, if_neg hn, List.length_cons]
      omega

theorem natToStr_digits (n : Nat) : ∀ c ∈ natToStr n, c.isDigit = true := by
  intro c hc
  rw [natToStr] at hc
  split at hc
  · simp at hc
    subst hc
    decide
  · simp only [List.mem_map, List.mem_reverse] at hc
    obtain ⟨d, hd, hdc⟩ := hc
    subst hdc
    exact isDigit_digitChar d (natDigitsRev_lt n n d hd)

theorem natToStr_len (n k : Nat) (hk : 1 ≤ k) (h : n < 10 ^ k) : (natToStr n).length ≤ k := by
  rw [natToStr]
  split
  · simpa using hk
  · simp only [List.length_map, List.length_reverse]
    exact natDigitsRev_len n n k (Nat.le_refl n) h

theorem natToStr_single (d : Nat) (h : d < 10) : natToStr d = [digitChar d] := by
  rw [natToStr]
  split
  · next h0 => subst h0; rfl
  · next h0 =>
    have h10 : d % 10 = d := Nat.mod_eq_of_lt h
    have hdiv : d / 10 = 0 := Nat.div_eq_of_lt h
    cases d with
    | zero => exact absurd rfl h0
    | succ d' =>
      simp only [natDigitsRev, if_neg h0, hdiv, natDigitsRev_zero, h10]
      simp

theorem takeWhile_all {p : Char → Bool} : (s : Str) → (∀ c ∈ s, p c = true) → s.takeWhile p = s
  | [], _ => rfl
  | x :: xs, h => by
    have hx : p x = true := h x (by simp)
    have ih := takeWhile_all xs (fun c hc => h c (List.mem_cons_of_mem _ hc))
    simp [List.takeWhile_cons, hx, ih]

theorem foldr_rebuild : (L : List Nat) → (∀ d ∈ L, d < 10) →
    L.foldr (fun d acc => acc * 10 + charVal (digitChar d)) 0 = ofDigitsLE L
  | [], _ => rfl
  | d :: L', h => by
    have ih := foldr_rebuild L' (fun x hx => h x (List.mem_cons_of_mem _ hx))
    simp only [List.foldr_cons, ih, ofDigitsLE, charVal_digitChar d (h d (by simp))]
    omega

theorem parseIntNat_natToStr (n : Nat) : parseIntNat (natToStr n) = some n := by
  rw [parseIntNat]
  have hdig := natToStr_digits n
  rw [takeWhile_all (natToStr n) hdig]
  have hne : ¬(natToStr n).isEmpty = true := by
    rw [natToStr]
    split <;> simp only [List.isEmpty_iff]
    · simp
    · next h0 =>
      intro hc
      simp only [List.map_eq_nil_iff, List.reverse_eq_nil_iff] at hc
      have := natDigitsRev_val n n (Nat.le_refl n)
      rw [hc] at this
      exact h0 (by simpa [ofDigitsLE] using this.symm)
  simp only [hne, if_false, Option.some.injEq, Bool.false_eq_true]
  rw [natToStr]
  split
  · next h0 => subst h0; decide
  · rw [List.map_reverse, List.foldl_reverse, List.foldr_map]
    exact foldr_rebuild (natDigitsRev n n) (natDigitsRev_lt n n) |>.trans
      (natDigitsRev_val n n (Nat.le_refl n))

/-! ## Round-trip lemmas for the codec -/

theorem create_eq (m : MsgOut) :
    create m = startLineStr m.start ++ crlf ++ hdrBlock m.headers ++ crlf ++ m.body := rfl

theorem hdrBlock_cons (kv : Str × Str) (hs : List (Str × Str)) :
    hdrBlock (kv :: hs) = hdrLine kv ++ crlf ++ hdrBlock hs := by
  simp [hdrBlock, hdrLine, crlf]

theorem hdrLine_ne_nil (kv : Str × Str) : hdrLine kv ≠ [] := by
  simp [hdrLine]

theorem no_nl_hdrLine (kv : Str × Str) (h1 : '\n' ∉ kv.1) (h2 : '\n' ∉ kv.2) :
    '\n' ∉ hdrLine kv := by
  simp only [hdrLine, List.mem_append, List.mem_cons]
  rintro (h | h | h | h)
  · exact h1 h
  · exact absurd h (by decide)
  · exact absurd h (by decide)
  · exact h2 h

theorem split2_hdrBlock :
    (hs : List (Str × Str)) → (body : Str) → (∀ kv ∈ hs, '\n' ∉ kv.1 ∧ '\n' ∉ kv.2) →
    split2 '\r' '\n' (hdrBlock hs ++ crlf ++ body) =
      hs.map hdrLine ++ [] :: split2 '\r' '\n' body
  | [], body, _ => by
    have h := split2_append_sep '\r' '\n' (by decide) [] body rfl
    simpa [hdrBlock, crlf] using h
  | kv :: hs', body, h => by
    have hkv := h kv (by simp)
    have ih := split2_hdrBlock hs' body (fun x hx => h x (List.mem_cons_of_mem _ hx))
    have hnl : '\n' ∉ hdrLine kv := no_nl_hdrLine kv hkv.1 hkv.2
    have hsep := split2_append_sep '\r' '\n' (by decide) (hdrLine kv)
      (hdrBlock hs' ++ crlf ++ body) (has2_false_of_not_mem _ _ _ hnl)
    rw [hdrBlock_cons]
    calc split2 '\r' '\n' (hdrLine kv ++ crlf ++ hdrBlock hs' ++ crlf ++ body)
        = split2 '\r' '\n' (hdrLine kv ++ '\r' :: '\n' :: (hdrBlock hs' ++ crlf ++ body)) := by
          simp [crlf]
      _ = hdrLine kv :: split2 '\r' '\n' (hdrBlock hs' ++ crlf ++ body) := hsep
      _ = hdrLine kv :: (hs'.map hdrLine ++ [] :: split2 '\r' '\n' body) := by rw [ih]
      _ = (kv :: hs').map hdrLine ++ [] :: split2 '\r' '\n' body := by simp

theorem split2_create (m : MsgOut)
    (hstart : '\n' ∉ startLineStr m.start)
    (hhs : ∀ kv ∈ m.headers, '\n' ∉ kv.1 ∧ '\n' ∉ kv.2) :
    split2 '\r' '\n' (create m) =
      startLineStr m.start :: (m.headers.map hdrLine ++ [] :: split2 '\r' '\n' m.body) := by
  rw [create_eq]
  have hsep := split2_append_sep '\r' '\n' (by decide) (startLineStr m.start)
    (hdrBlock m.headers ++ crlf ++ m.body) (has2_false_of_not_mem _ _ _ hstart)
  calc split2 '\r' '\n' (startLineStr m.start ++ crlf ++ hdrBlock m.headers ++ crlf ++ m.body)
      = split2 '\r' '\n'
          (startLineStr m.start ++ '\r' :: '\n' :: (hdrBlock m.headers ++ crlf ++ m.body)) := by
        simp [crlf]
    _ = startLineStr m.start :: split2 '\r' '\n' (hdrBlock m.headers ++ crlf ++ m.body) := hsep
    _ = startLineStr m.start :: (m.headers.map hdrLine ++ [] :: split2 '\r' '\n' m.body) := by
        rw [split2_hdrBlock m.headers m.body hhs]

theorem splitHeaderBody_append :
    (ls : List Str) → (bs : List Str) → (∀ l ∈ ls, l ≠ []) →
    splitHeaderBody (ls ++ [] :: bs) =
      (ls, if bs.isEmpty then none else some (join2 '\r' '\n' bs))
  | [], bs, _ => by simp [splitHeaderBody]
  | l :: ls', bs, h => by
    have hl : ¬l.isEmpty = true := by
      simp only [List.isEmpty_iff]
      exact h l (by simp)
    have ih := splitHeaderBody_append ls' bs (fun x hx => h x (List.mem_cons_of_mem _ hx))
    simp only [List.cons_append, splitHeaderBody, hl, if_false, Bool.false_eq_true,
      List.append_eq, ih]

theorem headerOfLine_hdrLine (kv : Str × Str)
    (hname : has2 ':' ' ' kv.1 = false) (hlow : lowerStr kv.1 = kv.1) :
    headerOfLine (hdrLine kv) = kv := by
  unfold headerOfLine hdrLine
  rw [split2_append_sep ':' ' ' (by decide) kv.1 kv.2 hname]
  simp [hlow, join2_split2]

theorem foldl_headerOfLine :
    (hs : List (Str × Str)) → (acc : List (Str × Str)) →
    (∀ kv ∈ hs, headerOfLine (hdrLine kv) = kv) →
    List.foldl (fun acc l => objInsert acc (headerOfLine l)) acc (hs.map hdrLine) =
      List.foldl objInsert acc hs
  | [], _, _ => rfl
  | kv :: hs', acc, h => by
    have hkv := h kv (by simp)
    have ih := foldl_headerOfLine hs' (objInsert acc kv)
      (fun x hx => h x (List.mem_cons_of_mem _ hx))
    simp only [List.map_cons, List.foldl_cons, hkv, ih]

theorem foldl_objInsert_append :
    (hs : List (Str × Str)) → (acc : List (Str × Str)) →
    (∀ kv ∈ hs, kv.1 ∉ acc.map Prod.fst) → (hs.map Prod.fst).Nodup →
    List.foldl objInsert acc hs = acc ++ hs
  | [], acc, _, _ => by simp
  | kv :: hs', acc, hfresh, hnodup => by
    have hfind : acc.find? (fun p => p.1 == kv.1) = none := by
      rw [List.find?_eq_none]
      intro p hp hbeq
      have : p.1 = kv.1 := by simpa using hbeq
      exact hfresh kv (by simp) (this ▸ List.mem_map_of_mem Prod.fst hp)
    have hnd' : (hs'.map Prod.fst).Nodup := by
      simpa using hnodup.of_cons
    have hkvfst : kv.1 ∉ hs'.map Prod.fst := by
      have := hnodup
      simp only [List.map_cons, List.nodup_cons] at this
      exact this.1
    have hfresh' : ∀ kv' ∈ hs', kv'.1 ∉ (acc ++ [kv]).map Prod.fst := by
      intro kv' hkv'
      simp only [List.map_append, List.mem_append, List.map_cons, List.map_nil,
        List.mem_singleton]
      rintro (hin | hin)
      · exact hfresh kv' (List.mem_cons_of_mem _ hkv') hin
      · exact hkvfst (hin ▸ List.mem_map_of_mem Prod.fst hkv')
    have ih := foldl_objInsert_append hs' (acc ++ [kv]) hfresh' hnd'
    simp only [List.foldl_cons, objInsert, hfind, Option.isSome_none, Bool.false_eq_true,
      if_false, ih]
    simp

theorem no_space_natToStr (c : Nat) : ' ' ∉ natToStr c := fun hm =>
  (isDigit_not_special _ (natToStr_digits c _ hm)).1 rfl

theorem no_nl_natToStr (c : Nat) : '\n' ∉ natToStr c := fun hm =>
  (isDigit_not_special _ (natToStr_digits c _ hm)).2.2 rfl

theorem no_nl_startline : (st : Start) → startOk st → '\n' ∉ startLineStr st
  | .req mth u, h => by
    obtain ⟨hm, hu, _⟩ := h
    simp only [startLineStr, List.mem_append, List.mem_cons]
    rintro (hmem | hmem | hmem | hmem | hmem)
    · exact hm.2.2 hmem
    · exact absurd hmem (by decide)
    · exact hu.2.2 hmem
    · exact absurd hmem (by decide)
    · exact absurd hmem (by decide)
  | .res c r, h => by
    simp only [startLineStr, List.mem_append, List.mem_cons]
    rintro ((hmem | hmem) | hmem | hmem)
    · exact absurd hmem (by decide)
    · exact no_nl_natToStr c hmem
    · exact absurd hmem (by decide)
    · exact h.2.2 hmem

theorem split1_startline_req (mth u : Str) (hm : ' ' ∉ mth) (hu : ' ' ∉ u) :
    split1 ' ' (startLineStr (.req mth u)) = [mth, u, "SIP/2.0".toList] := by
  show split1 ' ' (mth ++ ' ' :: (u ++ ' ' :: "SIP/2.0".toList)) = _
  rw [split1_append_sep ' ' mth _ hm, split1_append_sep ' ' u _ hu,
    split1_no_sep ' ' _ (by decide)]

theorem split1_startline_res (c : Nat) (r : Str) (hr : ' ' ∉ r) :
    split1 ' ' (startLineStr (.res c r)) = ["SIP/2.0".toList, natToStr c, r] := by
  show split1 ' ' ("SIP/2.0".toList ++ ' ' :: (natToStr c ++ ' ' :: r)) = _
  rw [split1_append_sep ' ' _ _ (by decide),
    split1_append_sep ' ' _ _ (no_space_natToStr c), split1_no_sep ' ' r hr]

/-! ## Substring and map lemmas -/

theorem isPrefixOf_append_self : (x post : Str) → x.isPrefixOf (x ++ post) = true
  | [], _ => by simp [List.isPrefixOf]
  | c :: x', post => by
    simp [List.isPrefixOf, isPrefixOf_append_self x' post]

theorem strIncl_self_append (x post : Str) : strIncl (x ++ post) x = true := by
  cases h : x ++ post with
  | nil =>
    have hx : x = [] := (List.append_eq_nil.mp h).1
    subst hx
    simp [strIncl]
  | cons a t =>
    rw [strIncl, ← h, isPrefixOf_append_self]
    simp

theorem strIncl_append_right (s t x : Str) (h : strIncl t x = true) :
    strIncl (s ++ t) x = true := by
  induction s with
  | nil => simpa using h
  | cons c s' ih => simp [List.cons_append, strIncl, ih]

theorem mget_mdel {α : Type} (m : List (Str × α)) (k : Str) : mget (mdel m k) k = none := by
  induction m with
  | nil => rfl
  | cons p m' ih =>
    by_cases hp : (p.1 == k) = true
    · simp only [mdel, List.filter_cons, hp, Bool.not_true, if_false, Bool.false_eq_true]
      exact ih
    · have hp' : (!(p.1 == k)) = true := by simp [hp]
      simp only [mdel, List.filter_cons, hp', if_true]
      simp only [mget, List.find?_cons, hp, Bool.false_eq_true, if_false]
      exact ih
/-- C4 (amended): for a well-formed message whose start-line tokens are
clean (no spaces in the reason phrase), whose header names are lowercase,
free of `': '`, and distinct, and with no line breaks in header fields,
parsing the serialized bytes reproduces every field. -/
theorem C4_parse_create_roundtrip (m : MsgOut) (h : wellFormed m) :
    parse (create m) = expectedParse m := by
  obtain ⟨hstart, hhs, hnodup⟩ := h
  have hhs_nl : ∀ kv ∈ m.headers, '\n' ∉ kv.1 ∧ '\n' ∉ kv.2 := fun kv hkv =>
    ⟨(hhs kv hkv).2.1, (hhs kv hkv).2.2.2.1⟩
  have hstart_nl : '\n' ∉ startLineStr m.start := no_nl_startline m.start hstart
  have hlines := split2_create m hstart_nl hhs_nl
  have hlines_ne : ∀ l ∈ m.headers.map hdrLine, l ≠ [] := by
    intro l hl
    simp only [List.mem_map] at hl
    obtain ⟨kv, _, rfl⟩ := hl
    exact hdrLine_ne_nil kv
  have hshb := splitHeaderBody_append (m.headers.map hdrLine) (split2 '\r' '\n' m.body) hlines_ne
  have hbs_ne : ¬(split2 '\r' '\n' m.body).isEmpty = true := by
    simp only [List.isEmpty_iff]
    exact split2_ne_nil '\r' '\n' m.body
  have hhol : ∀ kv ∈ m.headers, headerOfLine (hdrLine kv) = kv := fun kv hkv =>
    headerOfLine_hdrLine kv (hhs kv hkv).2.2.2.2.1 (hhs kv hkv).2.2.2.2.2
  have hfold := foldl_headerOfLine m.headers [] hhol
  have hfold2 := foldl_objInsert_append m.headers [] (by simp) hnodup
  unfold parse
  rw [hlines]
  simp only [List.headD_cons, List.tail_cons]
  rw [hshb]
  simp only [hbs_ne, if_false, Bool.false_eq_true]
  rw [join2_split2]
  simp only [hfold, hfold2, List.nil_append]
  cases hst : m.start with
  | req mth u =>
    rw [hst] at hstart
    obtain ⟨hmtok, hutok, hmne⟩ := hstart
    rw [split1_startline_req mth u hmtok.1 hutok.1]
    simp [expectedParse, hst, hmne]
    exact hmne
  | res c r =>
    rw [hst] at hstart
    rw [split1_startline_res c r hstart.1]
    simp [expectedParse, hst, parseIntNat_natToStr]

/-- C4 counterexample: the server's own `404 Not Found` response, once
serialized, parses back with reason phrase `Not` (the codec splits the
status line on single spaces), so parse(serialize(m)) does not reproduce
the reason phrase. -/
theorem C4_reason_phrase_lost :
    resNotFound.start = .res 404 ("Not Found".toList) ∧
    (parse (create resNotFound)).reasonPhrase = some ("Not".toList) ∧
    ¬(parse (create resNotFound)).reasonPhrase = some ("Not Found".toList) := by
  decide

/-- C4 witness: a concrete well-formed request round-trips. -/
theorem C4_parse_create_roundtrip_witness :
    wellFormed reqWitness ∧ parse (create reqWitness) = expectedParse reqWitness :=
  ⟨by decide, C4_parse_create_roundtrip reqWitness (by decide)⟩

/-- C10: for every random draw below 10^10, the generated ICCID is a
17-digit decimal string beginning with `898801` whose final digit makes
the weighted (Luhn-style) sum of the first 16 digits plus the check
digit divisible by 10. -/
theorem C10_generateIccid_check (r : Nat) (h : r < 10 ^ 10) :
    (generateIccid r).length = 17 ∧
    ("898801".toList).isPrefixOf (generateIccid r) = true ∧
    (∀ c ∈ generateIccid r, c.isDigit = true) ∧
    (luhnGo 0 ((generateIccid r).take 16) + charVal ((generateIccid r).getD 16 '0')) % 10 = 0 := by
  have hlen10 : (natToStr r).length ≤ 10 := natToStr_len r 10 (by norm_num) h
  have hpadlen : (pad10 (natToStr r)).length = 10 := by
    simp only [pad10, List.length_append, List.length_replicate]
    omega
  have hbase : ("898801".toList ++ pad10 (natToStr r)).length = 16 := by
    simp only [List.length_append, hpadlen]
    rfl
  set b := "898801".toList ++ pad10 (natToStr r) with hb
  set cd := (10 - luhnGo 0 b % 10) % 10 with hcd
  have hcdlt : cd < 10 := by
    rw [hcd]
    exact Nat.mod_lt _ (by norm_num)
  have hgen : generateIccid r = b ++ [digitChar cd] := by
    rw [generateIccid]
    simp only [← hb, ← hcd]
    rw [natToStr_single cd hcdlt]
  refine ⟨?_, ?_, ?_, ?_⟩
  · rw [hgen]
    simp [hbase]
  · rw [hgen, hb]
    rw [List.append_assoc]
    exact isPrefixOf_append_self _ _
  · intro c hc
    rw [hgen] at hc
    rcases List.mem_append.mp hc with hc | hc
    · rw [hb] at hc
      rcases List.mem_append.mp hc with hc | hc
      · fin_cases hc <;> decide
      · rw [pad10] at hc
        rcases List.mem_append.mp hc with hc | hc
        · rw [List.eq_of_mem_replicate hc]
          decide
        · exact natToStr_digits r c hc
    · rw [List.mem_singleton.mp hc]
      exact isDigit_digitChar cd hcdlt
  · rw [hgen]
    have htake : (b ++ [digitChar cd]).take 16 = b := by
      rw [← hbase]
      exact List.take_left b [digitChar cd]
    have hget : (b ++ [digitChar cd]).getD 16 '0' = digitChar cd := by
      unfold List.getD
      rw [← hbase]
      rw [show (b ++ [digitChar cd]).get? b.length = some (digitChar cd) from by
        rw [List.get?_eq_getElem?, List.getElem?_concat_length]]
      rfl
    rw [htake, hget, charVal_digitChar cd hcdlt, hcd]
    omega

/-- C10 witness: the draw 1234567890 yields ICCID `89880112345678905`,
satisfying all four properties. -/
theorem C10_generateIccid_check_witness :
    1234567890 < 10 ^ 10 ∧
    ((generateIccid 1234567890).length = 17 ∧
     ("898801".toList).isPrefixOf (generateIccid 1234567890) = true ∧
     (∀ c ∈ generateIccid 1234567890, c.isDigit = true) ∧
     (luhnGo 0 ((generateIccid 1234567890).take 16) +
       charVal ((generateIccid 1234567890).getD 16 '0')) % 10 = 0) :=
  ⟨by norm_num, C10_generateIccid_check 1234567890 (by norm_num)⟩

/-- C1 (code bug): register `alice` with `Expires: 1` at `now = 0`; the
stored binding expires at timestamp 1000 (ms), which is `≤ 2000`, yet
`handleInvite` — which never consults the expiry (it has no notion of
the current time) — still finds the binding, creates a Call, answers
`100 Trying` and forwards the INVITE instead of answering 404. -/
theorem C1_expired_binding_still_routed :
    (mget ((handleRegister stEmpty regMsgExp1 trB 0).1).registrations
        ("sip:alice@0.0.0.0".toList)).map Registration.expires = some 1000 ∧
    1000 ≤ 2000 ∧
    mget ((handleInvite (handleRegister stEmpty regMsgExp1 trB 0).1 invAlice trA).1).calls
        ("abc".toList) ≠ none ∧
    (handleInvite (handleRegister stEmpty regMsgExp1 trB 0).1 invAlice trA).2 =
      [Eff.response 100 ("Trying".toList) [] [],
       Eff.fwd ("INVITE".toList) ("sip:alice@0.0.0.0".toList) trB []] := by
  decide

/-- C2 counterexample: with the Call `abc` in state `accepted`, a CANCEL
arriving from the caller's own address — as a fresh transport object,
which every arrival is — is answered 200 (not 481), forwarded back to
the stored `fromTransport` with uri `call.from` (the identity test
against `fromTransport` is false), and the Call is deleted: the call
state is never consulted and the Call is not left unchanged. -/
theorem C2_cancel_accepted_deletes :
    (mget stAcc.calls ("abc".toList)).map Call.state = some ("accepted".toList) ∧
    trA2 ≠ callAcc.fromTransport ∧
    (handleCancel stAcc cancelMsg trA2).2 =
      [Eff.fwd ("CANCEL".toList) ("sip:bob@0.0.0.0".toList) trA [],
       Eff.response 200 ("OK".toList) [] []] ∧
    mget ((handleCancel stAcc cancelMsg trA2).1).calls ("abc".toList) = none := by
  decide

/-- C2 (amended): `handleCancel` never consults the call state: whenever
a Call exists for the Call-ID — `accepted` included — it answers 200,
deletes the Call, and forwards the CANCEL.  The leg selection tests
`transport === call.fromTransport`, which is object identity and false
for any CANCEL arriving after the INVITE (every arrival builds a fresh
transport object), so the CANCEL is forwarded back to the stored
`fromTransport` with uri `call.from`, not to the other leg; 481 is
returned only when no Call exists. -/
theorem C2_cancel_ignores_state (st : ServerState) (msg : HMsg) (tr : Transport)
    (cid : Str) (call : Call)
    (hcid : hGet msg ("call-id".toList) = some cid)
    (hcall : mget st.calls cid = some call)
    (htr : tr ≠ call.fromTransport) :
    handleCancel st msg tr =
      ({ st with calls := mdel st.calls cid },
       [Eff.fwd ("CANCEL".toList) call.from_ call.fromTransport [],
        Eff.response 200 ("OK".toList) [] []]) := by
  unfold handleCancel
  rw [hcid]
  simp [hcall, htr]

/-- C2 witness: the amended statement at the accepted-call fixture, with
the CANCEL arriving as a fresh transport object. -/
theorem C2_cancel_ignores_state_witness :
    hGet cancelMsg ("call-id".toList) = some ("abc".toList) ∧
    mget stAcc.calls ("abc".toList) = some callAcc ∧
    trA2 ≠ callAcc.fromTransport ∧
    handleCancel stAcc cancelMsg trA2 =
      ({ stAcc with calls := mdel stAcc.calls ("abc".toList) },
       [Eff.fwd ("CANCEL".toList) callAcc.from_ callAcc.fromTransport [],
        Eff.response 200 ("OK".toList) [] []]) :=
  ⟨by decide, by decide, by decide,
   C2_cancel_ignores_state stAcc cancelMsg trA2 ("abc".toList) callAcc
     (by decide) (by decide) (by decide)⟩

/-- C3 counterexample: `abc` has a Call in the non-terminal state
`accepted`, `alice` is registered, and a second INVITE for `abc`
replaces the Call with a fresh one in state `ringing` (losing the
answered SDP), so the existing Call is not left unchanged. -/
theorem C3_duplicate_invite_replaces :
    (mget stAcc.calls ("abc".toList)).map Call.state = some ("accepted".toList) ∧
    (mget ((handleInvite stAcc invAlice trA).1).calls ("abc".toList)).map Call.state =
      some ("ringing".toList) ∧
    mget ((handleInvite stAcc invAlice trA).1).calls ("abc".toList) ≠
      mget stAcc.calls ("abc".toList) := by
  decide

/-- C3 (amended): the call table keys at most one Call per Call-ID, but
`handleInvite` performs no duplicate detection: whenever the target is
registered (and not the provisioning pattern), it builds a fresh Call in
state `ringing` and stores it under the Call-ID, overwriting any
existing entry. -/
theorem C3_invite_overwrites_call (st : ServerState) (msg : HMsg) (tr : Transport)
    (cid to_ from_ : Str) (reg : Registration)
    (hcid : hGet msg ("call-id".toList) = some cid)
    (hto : (hGet msg ("to".toList)).bind extractUri = some to_)
    (hfrom : (hGet msg ("from".toList)).bind extractUri = some from_)
    (hprov : (strIncl to_ ("@0.0.0.0".toList) && strIncl to_ ("provision".toList)) = false)
    (hreg : mget st.registrations to_ = some reg) :
    handleInvite st msg tr =
      ({ st with calls := mset st.calls cid (ringingCall cid from_ to_ tr reg msg.body) },
       [Eff.response 100 ("Trying".toList) [] [],
        Eff.fwd ("INVITE".toList) to_ reg.transport msg.body]) := by
  unfold handleInvite
  rw [hcid, hto, hfrom]
  have hprov' : ¬(strIncl to_ ("@0.0.0.0".toList) = true ∧
      strIncl to_ ("provision".toList) = true) := by
    intro hp
    rw [hp.1, hp.2] at hprov
    simp at hprov
  simp [hreg, hprov', ringingCall]
  intro h1
  exact Bool.eq_false_iff.mpr (fun h2 => hprov' ⟨h1, h2⟩)

/-- C3 witness: the amended statement at the duplicate-INVITE fixture. -/
theorem C3_invite_overwrites_call_witness :
    mget stAcc.registrations ("sip:alice@0.0.0.0".toList) = some regAlice ∧
    handleInvite stAcc invAlice trA =
      ({ stAcc with calls := mset stAcc.calls ("abc".toList) (ringingCall ("abc".toList) ("sip:bob@0.0.0.0".toList) ("sip:alice@0.0.0.0".toList) trA regAlice invAlice.body) },
       [Eff.response 100 ("Trying".toList) [] [],
        Eff.fwd ("INVITE".toList) ("sip:alice@0.0.0.0".toList) regAlice.transport invAlice.body]) :=
  ⟨by decide,
   C3_invite_overwrites_call stAcc invAlice trA ("abc".toList) ("sip:alice@0.0.0.0".toList)
     ("sip:bob@0.0.0.0".toList) regAlice (by decide) (by decide) (by decide) (by decide)
     (by decide)⟩

/-- C5 counterexample: with a MediaRelaySession (sockets 0,1) already
stored for `abc`, invoking relay setup again is not a no-op: it binds
two new sockets (2,3) and replaces the stored session. -/
theorem C5_setup_not_noop :
    mget stAcc.mediaRelays ("abc".toList) = some ⟨0, 1⟩ ∧
    mget (setupMediaRelay stAcc ("abc".toList) sdpOffer sdpAnswer).mediaRelays
      ("abc".toList) = some ⟨2, 3⟩ ∧
    (setupMediaRelay stAcc ("abc".toList) sdpOffer sdpAnswer).nextSock = 4 := by
  decide

/-- C5 (amended): whenever both session descriptions carry a media line,
`setupMediaRelay` unconditionally binds two fresh sockets and stores the
new session under the call-id, overwriting (without closing) any
existing session; the map still holds at most one session per call-id. -/
theorem C5_setup_always_allocates (st : ServerState) (cid : Str) (f t : Str)
    (mi1 mi2 : MediaInfo) (h1 : parseSDP f = some mi1) (h2 : parseSDP t = some mi2) :
    setupMediaRelay st cid f t =
      { st with
        nextSock := st.nextSock + 2
        mediaRelays := mset st.mediaRelays cid ⟨st.nextSock, st.nextSock + 1⟩ } := by
  unfold setupMediaRelay
  rw [h1, h2]

/-- C5 witness: the amended statement at the accepted-call fixture. -/
theorem C5_setup_always_allocates_witness :
    parseSDP sdpOffer = some ⟨some 4000, some ("7.7.7.7".toList)⟩ ∧
    parseSDP sdpAnswer = some ⟨some 5000, some ("6.6.6.6".toList)⟩ ∧
    setupMediaRelay stAcc ("abc".toList) sdpOffer sdpAnswer =
      { stAcc with
        nextSock := stAcc.nextSock + 2
        mediaRelays := mset stAcc.mediaRelays ("abc".toList) ⟨stAcc.nextSock, stAcc.nextSock + 1⟩ } :=
  ⟨by decide, by decide,
   C5_setup_always_allocates stAcc ("abc".toList) sdpOffer sdpAnswer
     ⟨some 4000, some ("7.7.7.7".toList)⟩ ⟨some 5000, some ("6.6.6.6".toList)⟩
     (by decide) (by decide)⟩

/-- C6 counterexample: terminating the accepted call `abc` by CANCEL
deletes the Call but leaves its MediaRelaySession in place with both
sockets open, so CANCEL does not tear the session down. -/
theorem C6_cancel_leaves_relay :
    mget stAcc.calls ("abc".toList) ≠ none ∧
    mget stAcc.mediaRelays ("abc".toList) = some ⟨0, 1⟩ ∧
    mget ((handleCancel stAcc cancelMsg trA).1).calls ("abc".toList) = none ∧
    mget ((handleCancel stAcc cancelMsg trA).1).mediaRelays ("abc".toList) = some ⟨0, 1⟩ ∧
    ((handleCancel stAcc cancelMsg trA).1).closedSocks = [] := by
  decide

/-- C6 (amended): only BYE tears the relay down, and then exactly once:
`handleBye` closes both sockets and removes the session and the Call, a
second BYE for the same Call-ID finds no Call and answers 481 touching
nothing, and invoking the relay's close again after the teardown raises
(the close is not idempotent). -/
theorem C6_bye_teardown_once (st : ServerState) (msg : HMsg) (tr : Transport)
    (cid : Str) (call : Call) (relay : MediaRelay)
    (hcid : hGet msg ("call-id".toList) = some cid)
    (hcall : mget st.calls cid = some call)
    (hrelay : mget st.mediaRelays cid = some relay)
    (hf : relay.fromSock ∉ st.closedSocks)
    (ht : relay.toSock ∉ st.closedSocks)
    (hne : relay.fromSock ≠ relay.toSock) :
    (handleBye st msg tr).2.2 = false ∧
    (handleBye st msg tr).1.closedSocks = relay.toSock :: relay.fromSock :: st.closedSocks ∧
    mget (handleBye st msg tr).1.mediaRelays cid = none ∧
    mget (handleBye st msg tr).1.calls cid = none ∧
    handleBye (handleBye st msg tr).1 msg tr =
      ((handleBye st msg tr).1,
       [Eff.response 481 ("Call/Transaction Does Not Exist".toList) [] []], false) ∧
    (relayCloseT (handleBye st msg tr).1.closedSocks relay).2 = true := by
  have hnotin2 : relay.toSock ∉ relay.fromSock :: st.closedSocks := by
    simp only [List.mem_cons]
    rintro (he | he)
    · exact hne he.symm
    · exact ht he
  have hclose : relayCloseT st.closedSocks relay =
      (relay.toSock :: relay.fromSock :: st.closedSocks, false) := by
    unfold relayCloseT dgramCloseT
    simp [hf, hnotin2]
  have hbye : handleBye st msg tr =
      ({ st with
          calls := mdel st.calls cid
          closedSocks := relay.toSock :: relay.fromSock :: st.closedSocks
          mediaRelays := mdel st.mediaRelays cid },
       [Eff.fwd ("BYE".toList) (if tr = call.fromTransport then call.to_ else call.from_)
          (if tr = call.fromTransport then call.toTransport else call.fromTransport) [],
        Eff.response 200 ("OK".toList) [] []], false) := by
    unfold handleBye
    simp only [hcid, Option.some_bind, hcall, hrelay, hclose]
    simp
  refine ⟨?_, ?_, ?_, ?_, ?_, ?_⟩
  · rw [hbye]
  · rw [hbye]
  · rw [hbye]
    exact mget_mdel st.mediaRelays cid
  · rw [hbye]
    exact mget_mdel st.calls cid
  · rw [hbye]
    unfold handleBye
    simp only [hcid, Option.some_bind]
    rw [mget_mdel st.calls cid]
  · rw [hbye]
    unfold relayCloseT dgramCloseT
    simp

/-- C6 witness: the amended statement at the accepted-call fixture. -/
theorem C6_bye_teardown_once_witness :
    hGet byeMsg ("call-id".toList) = some ("abc".toList) ∧
    mget stAcc.calls ("abc".toList) = some callAcc ∧
    mget stAcc.mediaRelays ("abc".toList) = some (⟨0, 1⟩ : MediaRelay) ∧
    ((handleBye stAcc byeMsg trA).2.2 = false ∧
     (handleBye stAcc byeMsg trA).1.closedSocks = 1 :: 0 :: stAcc.closedSocks ∧
     mget (handleBye stAcc byeMsg trA).1.mediaRelays ("abc".toList) = none ∧
     mget (handleBye stAcc byeMsg trA).1.calls ("abc".toList) = none ∧
     handleBye (handleBye stAcc byeMsg trA).1 byeMsg trA =
       ((handleBye stAcc byeMsg trA).1,
        [Eff.response 481 ("Call/Transaction Does Not Exist".toList) [] []], false) ∧
     (relayCloseT (handleBye stAcc byeMsg trA).1.closedSocks ⟨0, 1⟩).2 = true) :=
  ⟨by decide, by decide, by decide,
   C6_bye_teardown_once stAcc byeMsg trA ("abc".toList) callAcc ⟨0, 1⟩
     (by decide) (by decide) (by decide) (by decide) (by decide) (by decide)⟩

/-- C7 counterexample: a `404 Not Found` final response for the
externally-routed call `e1` is relayed back, but the Call stays in the
call table — it is not terminated. -/
theorem C7_non2xx_keeps_call :
    respExt404.statusCode = some 404 ∧
    (handleExtResponse stExt ("e1".toList) callExt respExt404).1 = stExt ∧
    mget ((handleExtResponse stExt ("e1".toList) callExt respExt404).1).calls
      ("e1".toList) = some callExt ∧
    (handleExtResponse stExt ("e1".toList) callExt respExt404).2 =
      [Eff.relayResp (some 404) (some ("Not Found".toList)) []] := by
  decide

/-- C7 (amended): a matching final response with any status other than
200 is relayed verbatim back to the original caller and changes no
server state at all: in particular the Call is not removed from the
call table. -/
theorem C7_non200_not_terminated (st : ServerState) (cid : Str) (call : Call)
    (resp : PMsg) (n : Nat)
    (hr : resp.isResponse = true)
    (hcid : mget resp.headers ("call-id".toList) = some cid)
    (hsc : resp.statusCode = some n) (hne : n ≠ 200) :
    handleExtResponse st cid call resp =
      (st, [Eff.relayResp (some n) resp.reasonPhrase (resp.body.getD [])]) := by
  unfold handleExtResponse
  rw [hcid, hr, hsc]
  simp [hne]

/-- C7 witness: the amended statement at the external-call fixture. -/
theorem C7_non200_not_terminated_witness :
    respExt404.isResponse = true ∧
    mget respExt404.headers ("call-id".toList) = some ("e1".toList) ∧
    respExt404.statusCode = some 404 ∧
    handleExtResponse stExt ("e1".toList) callExt respExt404 =
      (stExt, [Eff.relayResp (some 404) respExt404.reasonPhrase (respExt404.body.getD [])]) :=
  ⟨by decide, by decide, by decide,
   C7_non200_not_terminated stExt ("e1".toList) callExt respExt404 404
     (by decide) (by decide) (by decide) (by decide)⟩

/-- C8: an INVITE whose target matches the reserved provisioning pattern
is delegated without creating a Call (the server state is untouched and
only the provisioning event is emitted); the provisioning handler then
answers 400 when the `PROVISION-ESIM` marker is absent, 500 when the
ProfileStore mint fails, and otherwise 200 with a body that contains the
freshly minted phone number, ICCID, and IMSI — and it never touches the
call table on any path. -/
theorem C8_provisioning_paths (st : ServerState) (msg : HMsg) (tr : Transport)
    (cid to_ from_ : Str) (d : ProvisionData)
    (hcid : hGet msg ("call-id".toList) = some cid)
    (hto : (hGet msg ("to".toList)).bind extractUri = some to_)
    (hfrom : (hGet msg ("from".toList)).bind extractUri = some from_)
    (hdom : strIncl to_ ("@0.0.0.0".toList) = true)
    (hprov : strIncl to_ ("provision".toList) = true) :
    handleInvite st msg tr = (st, [Eff.provisionEmit]) ∧
    (strIncl msg.body ("PROVISION-ESIM".toList) = false →
      handleProvisioningRequest (Except.ok d) msg =
        [Eff.response 400 ("Bad Request".toList) [] []]) ∧
    (strIncl msg.body ("PROVISION-ESIM".toList) = true →
      handleProvisioningRequest (Except.error ()) msg =
        [Eff.response 500 ("Internal Server Error".toList) [] []]) ∧
    (strIncl msg.body ("PROVISION-ESIM".toList) = true →
      handleProvisioningRequest (Except.ok d) msg =
        [Eff.response 200 ("OK".toList)
          [(("Content-Type".toList), "application/esim-provision".toList),
           (("Content-Length".toList), natToStr (provisionBody d).length)]
          (provisionBody d)] ∧
      strIncl (provisionBody d) d.phoneNumber = true ∧
      strIncl (provisionBody d) d.iccid = true ∧
      strIncl (provisionBody d) d.imsi = true) := by
  refine ⟨?_, ?_, ?_, ?_⟩
  · unfold handleInvite
    simp only [hcid, hto, hfrom, hdom, hprov]
    simp
  · intro hm
    unfold handleProvisioningRequest
    rw [hm]
    simp
  · intro hm
    unfold handleProvisioningRequest
    rw [hm]
    simp
  · intro hm
    refine ⟨?_, ?_, ?_, ?_⟩
    · unfold handleProvisioningRequest
      rw [hm]
      simp
    · unfold provisionBody
      simp only [List.append_assoc]
      exact strIncl_append_right _ _ _ (strIncl_self_append _ _)
    · unfold provisionBody
      simp only [List.append_assoc]
      exact strIncl_append_right _ _ _ (strIncl_append_right _ _ _
        (strIncl_append_right _ _ _ (strIncl_self_append _ _)))
    · unfold provisionBody
      simp only [List.append_assoc]
      exact strIncl_append_right _ _ _ (strIncl_append_right _ _ _
        (strIncl_append_right _ _ _ (strIncl_append_right _ _ _
          (strIncl_append_right _ _ _ (strIncl_self_append _ _)))))

/-- C8 witness: the provisioning fixture exercises the marker-present
success path. -/
theorem C8_provisioning_paths_witness :
    strIncl ("sip:provision@0.0.0.0".toList) ("@0.0.0.0".toList) = true ∧
    strIncl ("sip:provision@0.0.0.0".toList) ("provision".toList) = true ∧
    (handleInvite stAcc provMsg trA = (stAcc, [Eff.provisionEmit]) ∧
     (strIncl provMsg.body ("PROVISION-ESIM".toList) = false →
       handleProvisioningRequest (Except.ok pdFix) provMsg =
         [Eff.response 400 ("Bad Request".toList) [] []]) ∧
     (strIncl provMsg.body ("PROVISION-ESIM".toList) = true →
       handleProvisioningRequest (Except.error ()) provMsg =
         [Eff.response 500 ("Internal Server Error".toList) [] []]) ∧
     (strIncl provMsg.body ("PROVISION-ESIM".toList) = true →
       handleProvisioningRequest (Except.ok pdFix) provMsg =
         [Eff.response 200 ("OK".toList)
           [(("Content-Type".toList), "application/esim-provision".toList),
            (("Content-Length".toList), natToStr (provisionBody pdFix).length)]
           (provisionBody pdFix)] ∧
       strIncl (provisionBody pdFix) pdFix.phoneNumber = true ∧
       strIncl (provisionBody pdFix) pdFix.iccid = true ∧
       strIncl (provisionBody pdFix) pdFix.imsi = true)) :=
  ⟨by decide, by decide,
   C8_provisioning_paths stAcc provMsg trA ("p1".toList)
     ("sip:provision@0.0.0.0".toList) ("sip:bob@0.0.0.0".toList) pdFix
     (by decide) (by decide) (by decide) (by decide) (by decide)⟩

/-- C9: a REGISTER carrying a Contact but no Expires header defaults the
expiry to 3600 seconds: the binding is created (or refreshed) with
`expires = now + 3600 * 1000` and the 200 response echoes
`Expires: 3600` next to the original Contact header. -/
theorem C9_register_default_expiry (st : ServerState) (msg : HMsg) (tr : Transport)
    (now : Nat) (t aor c ct : Str)
    (hto : hGet msg ("to".toList) = some t) (haor : extractUri t = some aor)
    (hc : hGet msg ("contact".toList) = some c) (hcne : ¬c.isEmpty = true)
    (hct : extractUri c = some ct) (hctne : ¬ct.isEmpty = true)
    (hexp : hGet msg ("expires".toList) = none) :
    handleRegister st msg tr now =
      ({ st with registrations := mset st.registrations aor ⟨ct, now + 3600 * 1000, tr⟩ },
       [Eff.response 200 ("OK".toList)
         [(("Contact".toList), c), (("Expires".toList), natToStr 3600)] []]) := by
  unfold handleRegister
  rw [hto]
  simp only [haor, Option.some_bind, hc, hexp, hct, hcne, if_false, Bool.false_eq_true]
  simp [hctne]

/-- C9 witness: the Contact-only REGISTER fixture at `now = 5000`. -/
theorem C9_register_default_expiry_witness :
    hGet regMsgNoExp ("contact".toList) = some ("<sip:alice@8.8.8.8>".toList) ∧
    hGet regMsgNoExp ("expires".toList) = none ∧
    handleRegister stEmpty regMsgNoExp trB 5000 =
      ({ stEmpty with registrations := mset stEmpty.registrations ("sip:alice@0.0.0.0".toList) ⟨"sip:alice@8.8.8.8".toList, 5000 + 3600 * 1000, trB⟩ },
       [Eff.response 200 ("OK".toList)
         [(("Contact".toList), "<sip:alice@8.8.8.8>".toList),
          (("Expires".toList), natToStr 3600)] []]) :=
  ⟨by decide, by decide,
   C9_register_default_expiry stEmpty regMsgNoExp trB 5000
     ("<sip:alice@0.0.0.0>".toList) ("sip:alice@0.0.0.0".toList)
     ("<sip:alice@8.8.8.8>".toList) ("sip:alice@8.8.8.8".toList)
     (by decide) (by decide) (by decide) (by decide) (by decide) (by decide) (by decide)⟩
